import Mathlib

/-!
Shallow embedding of the concurrency core of the amusement-park simulator:
the virtual clock (`source/core.py`), the dual-lane ride queue and the
single-lane service queue (`source/facilities/queues.py`), and the ride
state machine with its breakdown/repair protocol
(`source/facilities/ride.py`, `source/facilities/ride_states.py`).

Threads are modelled by explicit state passing: each Python method that
mutates `self` becomes a Lean function from the old record to the new
record (plus its return value).  `clock.now()` is passed in explicitly as
the `now` argument where the Python code reads it.  Visitor objects are
identified by a numeric id (Python compares them with `is`, i.e. identity).
-/

namespace ParkSim

/-- Renders the Python admission guard `maxSize is not None and len >=
maxSize`: the lane is at its configured capacity (an unbounded lane never
is). -/
def laneFull (len : Nat) : Option Nat → Bool
  | none => false
  | some m => decide (m ≤ len)

/-- A lane length respects an optional configured maximum. -/
def withinCap (len : Nat) : Option Nat → Bool
  | none => true
  | some m => decide (len ≤ m)

/-- Embeds `QueueItem` from `source/facilities/queues.py`: payload (visitor
identity), enqueue minute, and the fast-pass flag. -/
structure QueueItem where
  obj : Nat
  enq_minute : Nat
  priority : Bool
deriving DecidableEq, Repr

/-- Embeds `RideQueue` from `source/facilities/queues.py`: a regular lane
and a priority lane (Python `deque`s, modelled as lists with the head at the
left), the `support_priority` flag and the optional per-lane capacities. -/
structure RideQueue where
  support_priority : Bool
  reg : List QueueItem
  pri : List QueueItem
  max_regular : Option Nat
  max_priority : Option Nat
deriving DecidableEq, Repr

namespace RideQueue

/-- Embeds `RideQueue.size`. -/
def size (q : RideQueue) : Nat :=
  q.reg.length + q.pri.length

/-- Embeds `RideQueue.len_regular`. -/
def len_regular (q : RideQueue) : Nat := q.reg.length

/-- Embeds `RideQueue.len_priority`. -/
def len_priority (q : RideQueue) : Nat := q.pri.length

/-- Embeds `RideQueue.enqueue`.  Returns the Python return value (`True`
iff the item was queued) together with the new queue state. -/
def enqueue (q : RideQueue) (obj : Nat) (now_minute : Nat) (priority : Bool) :
    Bool × RideQueue :=
  let item : QueueItem := ⟨obj, now_minute, priority⟩
  if priority && q.support_priority then
    if laneFull q.pri.length q.max_priority then (false, q)
    else (true, { q with pri := q.pri ++ [item] })
  else
    if laneFull q.reg.length q.max_regular then (false, q)
    else (true, { q with reg := q.reg ++ [item] })

/-- Embeds the `for i, it in enumerate(dq): if it.obj is obj: ... break`
scan of `RideQueue.remove`: index of the first item whose payload matches. -/
def findFirst (p : QueueItem → Bool) : List QueueItem → Option Nat
  | [] => none
  | x :: rest => if p x then some 0 else (findFirst p rest).map (· + 1)

/-- Left (cyclic, given `k` at most the length) rotation: `deque.rotate(-k)`. -/
def rotl (l : List QueueItem) (k : Nat) : List QueueItem :=
  l.drop k ++ l.take k

/-- Embeds `RideQueue._rotate_remove`: `dq.rotate(-index); dq.popleft();
dq.rotate(index)`.  A right rotation by `k ≤ length` is a left rotation by
`length - k`, which is how the final `rotate(index)` is rendered (`remove`
only calls this with `index` strictly below the original length, so `index`
never exceeds the length of the intermediate deque). -/
def rotate_remove (dq : List QueueItem) (index : Nat) : List QueueItem :=
  let d1 := (rotl dq index).tail
  rotl d1 (d1.length - index)

/-- Embeds `RideQueue.remove`: the regular lane is scanned first, then the
priority lane; the first item whose payload is identical to `obj` is
removed via `rotate_remove`.  Returns the Python return value (`removed`). -/
def remove (q : RideQueue) (obj : Nat) : Bool × RideQueue :=
  match findFirst (fun it => it.obj == obj) q.reg with
  | some i => (true, { q with reg := rotate_remove q.reg i })
  | none =>
    match findFirst (fun it => it.obj == obj) q.pri with
    | some i => (true, { q with pri := rotate_remove q.pri i })
    | none => (false, q)

/-- Embeds the `while len(taken) < capacity and lane:
taken.append(lane.popleft())` loops of `RideQueue.get_batch_for_boarding`.
Returns the grown `taken` list and what is left of the lane. -/
def fillFrom (cap : Nat) (taken : List QueueItem) :
    List QueueItem → List QueueItem × List QueueItem
  | [] => (taken, [])
  | x :: rest =>
    if taken.length < cap then fillFrom cap (taken ++ [x]) rest
    else (taken, x :: rest)

/-- Embeds `RideQueue.get_batch_for_boarding`: early return on
`capacity <= 0`; otherwise one item from the priority lane if the queue
supports priority and that lane is non-empty, then the two fill loops. -/
def get_batch_for_boarding (q : RideQueue) (capacity : Int) :
    List QueueItem × RideQueue :=
  if capacity ≤ 0 then ([], q)
  else
    let cap := capacity.toNat
    let step1 : List QueueItem × List QueueItem :=
      match q.support_priority, q.pri with
      | true, x :: rest => ([x], rest)
      | _, _ => ([], q.pri)
    let step2 := fillFrom cap step1.1 q.reg
    let step3 := fillFrom cap step2.1 step1.2
    (step3.1, { q with reg := step2.2, pri := step3.2 })

end RideQueue

/-- Embeds `ServiceQueue` from `source/facilities/queues.py`: a single FIFO
lane with an optional capacity. -/
structure ServiceQueue where
  q : List QueueItem
  max_size : Option Nat
deriving DecidableEq, Repr

namespace ServiceQueue

/-- Embeds `ServiceQueue.enqueue`. -/
def enqueue (s : ServiceQueue) (obj : Nat) (now_minute : Nat) :
    Bool × ServiceQueue :=
  let item : QueueItem := ⟨obj, now_minute, false⟩
  if laneFull s.q.length s.max_size then (false, s)
  else (true, { s with q := s.q ++ [item] })

end ServiceQueue

/-- Embeds `Clock` from `source/core.py`, restricted to the fields that the
tick-counting operations read and write: the horizon `_open_minutes`, the
counter `_now`, and the stop flag (`threading.Event`, constant within a
sequential run). -/
structure Clock where
  open_minutes : Int
  now : Int
  stopped : Bool
deriving DecidableEq, Repr

namespace Clock

/-- Embeds `Clock.sleep_minutes`: `for _ in range(minutes)` checks the stop
flag, sleeps one scaled real-time slice, and then increments `self._now`. -/
def sleep_minutes (c : Clock) : Nat → Clock
  | 0 => c
  | n + 1 =>
    if c.stopped then c
    else sleep_minutes { c with now := c.now + 1 } n

/-- Embeds `Clock.should_stop`. -/
def should_stop (c : Clock) : Bool :=
  c.stopped || decide (c.open_minutes ≤ c.now)

/-- Embeds `Clock.run_until_close`: `while self._now < self._open_minutes
and not self._stop.is_set(): sleep; self._now += 1`. -/
def run_until_close (c : Clock) : Clock :=
  if c.now < c.open_minutes ∧ c.stopped = false then
    run_until_close { c with now := c.now + 1 }
  else c
termination_by (c.open_minutes - c.now).toNat
decreasing_by
  simp_wf
  omega

end Clock

/-- The four states of the ride state machine
(`source/facilities/ride_states.py`). -/
inductive RideStatus
  | OPEN
  | BOARDING
  | BROKEN
  | MAINTENANCE
deriving DecidableEq, Repr, BEq

/-- Embeds the mutable fields of `Ride` (`source/facilities/ride.py`)
together with the `_minutes_in_window` counter of its `BoardingState`
instance (a single instance, reused across boarding windows, whose counter
is reset by `on_enter`).  `repair_alive` models
`self._repair_thread is not None and self._repair_thread.is_alive()`. -/
structure Ride where
  name : String
  capacity : Int
  run_duration : Nat
  board_window : Nat
  queue : RideQueue
  state : RideStatus
  minutes_in_window : Nat
  broken_until : Int
  repair_alive : Bool
deriving DecidableEq, Repr

namespace Ride

/-- Embeds `Ride.is_broken`: true iff the current state's name is
`"BROKEN"` or `"MAINTENANCE"`. -/
def is_broken (r : Ride) : Bool :=
  r.state == RideStatus.BROKEN || r.state == RideStatus.MAINTENANCE

/-- Embeds `Ride.break_for`.  `now` is the value read from
`self.clock.now()`; `max 1 repair_minutes` renders `max(1,
int(repair_minutes))`.  The second component records whether a new repair
guardian thread was spawned (`self._repair_thread.start()`).  Note the
source updates `_broken_until` and possibly spawns the guardian but never
calls `transition_to`, so `state` is left untouched. -/
def break_for (r : Ride) (now : Int) (repair_minutes : Int) : Ride × Bool :=
  let ext := max 1 repair_minutes
  let was_broken := r.is_broken
  let r1 := { r with broken_until := max r.broken_until (now + ext) }
  if was_broken then (r1, false)
  else if r.repair_alive then (r1, false)
  else ({ r1 with repair_alive := true }, true)

/-- Embeds one iteration of the polling loop of `Ride._repair_guardian`
at clock value `now`: under the lock it compares `now` with
`_broken_until`; when the deadline has passed it logs/records the repair
and breaks out of the loop.  The second component is true iff the guardian
exits.  The source never calls `transition_to` here, so the ride record is
returned unchanged. -/
def repair_guardian_poll (r : Ride) (now : Int) : Ride × Bool :=
  if r.broken_until ≤ now then (r, true) else (r, false)

/-- Outcome of one `BoardingState.tick`. -/
inductive BoardOutcome
  | cycleRun (batch : List QueueItem)
  | toOpen
  | stay
deriving DecidableEq, Repr

/-- Embeds `BoardingState.tick` (`source/facilities/ride_states.py`):
increment `_minutes_in_window`, pull a batch with
`get_batch_for_boarding(capacity)`; a non-empty batch runs one cycle and
transitions to OPEN; an empty batch transitions to OPEN once the window
counter reaches `board_window`, else the ride stays in BOARDING. -/
def boarding_tick (r : Ride) : Ride × BoardOutcome :=
  let w := r.minutes_in_window + 1
  let res := RideQueue.get_batch_for_boarding r.queue r.capacity
  if res.1 = [] then
    if r.board_window ≤ w then
      ({ r with minutes_in_window := w, queue := res.2,
                state := RideStatus.OPEN }, BoardOutcome.toOpen)
    else
      ({ r with minutes_in_window := w, queue := res.2 }, BoardOutcome.stay)
  else
    ({ r with minutes_in_window := w, queue := res.2,
              state := RideStatus.OPEN }, BoardOutcome.cycleRun res.1)

/-- Embeds entering BOARDING (`transition_to(self.ride.boarding)` followed
by `BoardingState.on_enter`, which zeroes `_minutes_in_window`). -/
def enter_boarding (r : Ride) : Ride :=
  { r with state := RideStatus.BOARDING, minutes_in_window := 0 }

/-- Embeds `OpenState.tick`: if the queue is non-empty, transition to
BOARDING. -/
def open_tick (r : Ride) : Ride :=
  if 0 < r.queue.size then r.enter_boarding else r

/-- Iterated `BoardingState.tick`, dropping the outcomes. -/
def boardingTicks (r : Ride) : Nat → Ride
  | 0 => r
  | n + 1 => boardingTicks r.boarding_tick.1 n

end Ride

/-- Embeds the notification loop at the end of `Ride._run_cycle`:
`for item in batch: try: item.obj.on_ride_finished(self.name,
self.clock.now()) except Exception: pass`.  `recv` gives the behaviour of
each visitor's `on_ride_finished` (`.error` means it raised); the result is
the list of notifications actually delivered, in loop order.  An exception
is swallowed and the loop continues with the next item. -/
def run_cycle_notifications (rideName : String) (doneMinute : Int)
    (recv : Nat → Except Unit Unit) : List QueueItem → List (Nat × String × Int)
  | [] => []
  | it :: rest =>
    match recv it.obj with
    | Except.ok _ =>
        (it.obj, rideName, doneMinute) ::
          run_cycle_notifications rideName doneMinute recv rest
    | Except.error _ => run_cycle_notifications rideName doneMinute recv rest

/-- Whether a visitor's `on_ride_finished` returns normally. -/
def recvOk (recv : Nat → Except Unit Unit) (o : Nat) : Bool :=
  match recv o with
  | Except.ok _ => true
  | Except.error _ => false

/-! ## Helper lemmas about the queue operations -/

namespace RideQueue

theorem fillFrom_eq (cap : Nat) :
    ∀ (lane taken : List QueueItem),
      fillFrom cap taken lane =
        (taken ++ lane.take (cap - taken.length),
         lane.drop (cap - taken.length)) := by
  intro lane
  induction lane with
  | nil => intro taken; simp [fillFrom]
  | cons x rest ih =>
    intro taken
    rw [fillFrom]
    by_cases h : taken.length < cap
    · rw [if_pos h, ih]
      have hk : cap - taken.length = (cap - (taken ++ [x]).length) + 1 := by
        simp only [List.length_append, List.length_cons, List.length_nil]
        omega
      rw [hk]
      simp [List.take_succ_cons, List.drop_succ_cons]
    · rw [if_neg h]
      have hk : cap - taken.length = 0 := by omega
      simp [hk]

theorem get_batch_empty (q : RideQueue) (c : Int)
    (hr : q.reg = []) (hp : q.pri = []) :
    get_batch_for_boarding q c = ([], q) := by
  rw [get_batch_for_boarding]
  by_cases hc : c ≤ 0
  · rw [if_pos hc]
  · rw [if_neg hc]
    cases hsp : q.support_priority <;>
      · simp only [hr, hp, fillFrom]
        cases q
        simp_all

theorem get_batch_eq_pos (q : RideQueue) (capacity : Int)
    (hs : q.support_priority = true) (hc : 0 < capacity) :
    get_batch_for_boarding q capacity =
      (q.pri.take 1 ++
         q.reg.take (capacity.toNat - min 1 q.pri.length) ++
         (q.pri.drop 1).take
           ((capacity.toNat - min 1 q.pri.length) - q.reg.length),
       { q with
           reg := q.reg.drop (capacity.toNat - min 1 q.pri.length),
           pri := (q.pri.drop 1).drop
             ((capacity.toNat - min 1 q.pri.length) - q.reg.length) }) := by
  rw [get_batch_for_boarding, if_neg (by omega)]
  cases hp : q.pri with
  | nil =>
    simp [hs, hp, fillFrom_eq]
  | cons y ps =>
    simp only [hs, hp, fillFrom_eq, List.singleton_append, List.length_cons,
      List.length_nil, List.take_succ_cons, List.take_zero, List.drop_succ_cons,
      List.drop_zero, List.cons_append, List.nil_append, Nat.zero_add]
    have i2 : capacity.toNat - ((q.reg.take (capacity.toNat - 1)).length + 1) =
        capacity.toNat - min 1 (ps.length + 1) - q.reg.length := by
      simp only [List.length_take]
      omega
    have i1 : capacity.toNat - 1 = capacity.toNat - min 1 (ps.length + 1) := by
      omega
    rw [i2, i1]

theorem rotate_remove_eq (dq : List QueueItem) (i : Nat) (h : i < dq.length) :
    rotate_remove dq i = dq.take i ++ dq.drop (i + 1) := by
  rw [rotate_remove, rotl, rotl]
  rw [List.drop_eq_getElem_cons h]
  simp only [List.cons_append, List.tail_cons]
  have hlen : (dq.drop (i + 1) ++ dq.take i).length - i = (dq.drop (i + 1)).length := by
    simp only [List.length_append, List.length_drop, List.length_take]
    omega
  rw [hlen, List.drop_left, List.take_left]

theorem findFirst_spec (p : QueueItem → Bool) :
    ∀ (l : List QueueItem) (i : Nat), findFirst p l = some i →
      (∀ x ∈ l.take i, p x = false) ∧
      ∃ h : i < l.length, p (l.get ⟨i, h⟩) = true := by
  intro l
  induction l with
  | nil => intro i hi; simp [findFirst] at hi
  | cons x rest ih =>
    intro i hi
    rw [findFirst] at hi
    by_cases hx : p x = true
    · rw [if_pos hx] at hi
      cases hi
      exact ⟨by simp, ⟨by simp, hx⟩⟩
    · rw [if_neg hx] at hi
      cases hj : findFirst p rest with
      | none => rw [hj] at hi; simp at hi
      | some j =>
        rw [hj] at hi
        simp only [Option.map_some'] at hi
        cases hi
        obtain ⟨h1, h2, h3⟩ := ih j hj
        refine ⟨?_, ⟨by simpa using h2, by simpa using h3⟩⟩
        intro z hz
        rw [List.take_succ_cons] at hz
        rcases List.mem_cons.mp hz with hz | hz
        · subst hz; simpa using hx
        · exact h1 z hz

theorem findFirst_none (p : QueueItem → Bool) :
    ∀ (l : List QueueItem), findFirst p l = none → ∀ x ∈ l, p x = false := by
  intro l
  induction l with
  | nil => intro _ x hx; simp at hx
  | cons y rest ih =>
    intro hn x hx
    rw [findFirst] at hn
    by_cases hy : p y = true
    · rw [if_pos hy] at hn; simp at hn
    · rw [if_neg hy] at hn
      rcases List.mem_cons.mp hx with hx | hx
      · subst hx; simpa using hy
      · exact ih (by simpa using hn) x hx

end RideQueue

/-! ## Capacity bookkeeping for the enqueue operations -/

theorem withinCap_succ_of_not_full (len : Nat) (o : Option Nat)
    (h : laneFull len o = false) : withinCap (len + 1) o = true := by
  cases o with
  | none => rfl
  | some m =>
    simp only [laneFull, decide_eq_false_iff_not] at h
    simp only [withinCap, decide_eq_true_eq]
    omega

namespace RideQueue

/-- Both lanes of a ride queue respect their configured maxima. -/
def capsOk (q : RideQueue) : Prop :=
  withinCap q.reg.length q.max_regular = true ∧
  withinCap q.pri.length q.max_priority = true

/-- Fold a sequence of `enqueue` calls (payload, minute, priority flag)
over a queue, as a sequence of producers would issue them. -/
def applyEnqueues (q : RideQueue) : List (Nat × Nat × Bool) → RideQueue
  | [] => q
  | op :: rest => applyEnqueues (q.enqueue op.1 op.2.1 op.2.2).2 rest

theorem enqueue_caps (q : RideQueue) (obj m : Nat) (p : Bool)
    (h : q.capsOk) : (q.enqueue obj m p).2.capsOk := by
  obtain ⟨hr, hp⟩ := h
  rw [enqueue]
  by_cases hps : (p && q.support_priority) = true
  · rw [if_pos hps]
    by_cases hfull : laneFull q.pri.length q.max_priority = true
    · rw [if_pos hfull]; exact ⟨hr, hp⟩
    · rw [if_neg hfull]
      refine ⟨hr, ?_⟩
      have := withinCap_succ_of_not_full q.pri.length q.max_priority
        (by simpa using hfull)
      simpa [capsOk] using this
  · rw [if_neg hps]
    by_cases hfull : laneFull q.reg.length q.max_regular = true
    · rw [if_pos hfull]; exact ⟨hr, hp⟩
    · rw [if_neg hfull]
      refine ⟨?_, hp⟩
      have := withinCap_succ_of_not_full q.reg.length q.max_regular
        (by simpa using hfull)
      simpa [capsOk] using this

theorem applyEnqueues_caps (ops : List (Nat × Nat × Bool)) :
    ∀ (q : RideQueue), q.capsOk → (q.applyEnqueues ops).capsOk := by
  induction ops with
  | nil => intro q h; exact h
  | cons op rest ih =>
    intro q h
    exact ih _ (enqueue_caps q op.1 op.2.1 op.2.2 h)

theorem enqueue_rejected_iff (q : RideQueue) (obj m : Nat) (p : Bool) :
    (q.enqueue obj m p).1 = false ↔
      laneFull
        (if p && q.support_priority then q.pri.length else q.reg.length)
        (if p && q.support_priority then q.max_priority else q.max_regular) =
        true := by
  rw [enqueue]
  by_cases hps : (p && q.support_priority) = true
  · rw [if_pos hps]
    simp only [hps, if_true]
    by_cases hfull : laneFull q.pri.length q.max_priority = true
    · rw [if_pos hfull]; simp [hfull]
    · rw [if_neg hfull]; simp_all
  · rw [if_neg hps]
    simp only [hps, if_false]
    by_cases hfull : laneFull q.reg.length q.max_regular = true
    · rw [if_pos hfull]; simp [hfull]
    · rw [if_neg hfull]; simp_all

end RideQueue

namespace ServiceQueue

/-- The single lane of a service queue respects its configured maximum. -/
def capsOk (s : ServiceQueue) : Prop :=
  withinCap s.q.length s.max_size = true

/-- Fold a sequence of `enqueue` calls (payload, minute) over a service
queue. -/
def applyEnqueues (s : ServiceQueue) : List (Nat × Nat) → ServiceQueue
  | [] => s
  | op :: rest => applyEnqueues (s.enqueue op.1 op.2).2 rest

theorem service_enqueue_caps (s : ServiceQueue) (obj m : Nat)
    (h : s.capsOk) : (s.enqueue obj m).2.capsOk := by
  rw [enqueue]
  by_cases hfull : laneFull s.q.length s.max_size = true
  · rw [if_pos hfull]; exact h
  · rw [if_neg hfull]
    have := withinCap_succ_of_not_full s.q.length s.max_size
      (by simpa using hfull)
    simpa [capsOk] using this

theorem service_applyEnqueues_caps (ops : List (Nat × Nat)) :
    ∀ (s : ServiceQueue), s.capsOk → (s.applyEnqueues ops).capsOk := by
  induction ops with
  | nil => intro s h; exact h
  | cons op rest ih =>
    intro s h
    exact ih _ (service_enqueue_caps s op.1 op.2 h)

theorem service_enqueue_rejected_iff (s : ServiceQueue) (obj m : Nat) :
    (s.enqueue obj m).1 = false ↔ laneFull s.q.length s.max_size = true := by
  rw [enqueue]
  by_cases hfull : laneFull s.q.length s.max_size = true
  · rw [if_pos hfull]; simp [hfull]
  · rw [if_neg hfull]; simp_all

end ServiceQueue

/-! ## Helper lemmas about the clock and the ride state machine -/

namespace Clock

theorem sleep_minutes_now (n : Nat) :
    ∀ (c : Clock),
      (c.stopped = false → c.sleep_minutes n = { c with now := c.now + n }) ∧
      (c.stopped = true → c.sleep_minutes n = c) := by
  induction n with
  | zero => intro c; constructor <;> intro _ <;> simp [sleep_minutes]
  | succ k ih =>
    intro c
    constructor <;> intro hst <;> rw [sleep_minutes]
    · rw [if_neg (by simp [hst])]
      rw [(ih { c with now := c.now + 1 }).1 (by simpa using hst)]
      simp only [Clock.mk.injEq, true_and, and_true]
      omega
    · rw [if_pos (by simp [hst])]

end Clock

namespace Ride

theorem break_for_fst (r : Ride) (now m : Int) :
    (r.break_for now m).1.broken_until = max r.broken_until (now + max 1 m) ∧
    (r.break_for now m).1.state = r.state := by
  rw [break_for]
  by_cases hb : r.is_broken = true
  · rw [if_pos hb]; exact ⟨rfl, rfl⟩
  · rw [if_neg hb]
    by_cases ha : r.repair_alive = true
    · rw [if_pos ha]; exact ⟨rfl, rfl⟩
    · rw [if_neg ha]; exact ⟨rfl, rfl⟩

theorem boarding_tick_empty (r : Ride)
    (hreg : r.queue.reg = []) (hpri : r.queue.pri = []) :
    r.boarding_tick =
      if r.board_window ≤ r.minutes_in_window + 1 then
        ({ r with minutes_in_window := r.minutes_in_window + 1,
                  state := RideStatus.OPEN }, BoardOutcome.toOpen)
      else
        ({ r with minutes_in_window := r.minutes_in_window + 1 },
          BoardOutcome.stay) := by
  rw [boarding_tick]
  rw [RideQueue.get_batch_empty r.queue r.capacity hreg hpri]
  by_cases hw : r.board_window ≤ r.minutes_in_window + 1
  · simp [hw]
  · simp [hw]

theorem boardingTicks_empty (n : Nat) :
    ∀ (r : Ride), r.queue.reg = [] → r.queue.pri = [] →
      r.minutes_in_window + n ≤ r.board_window →
      boardingTicks r n =
        if r.minutes_in_window + n = r.board_window ∧ 0 < n then
          { r with minutes_in_window := r.minutes_in_window + n,
                   state := RideStatus.OPEN }
        else { r with minutes_in_window := r.minutes_in_window + n } := by
  induction n with
  | zero =>
    intro r _ _ _
    rw [if_neg (by omega)]
    rfl
  | succ k ih =>
    intro r hreg hpri hle
    rw [boardingTicks, boarding_tick_empty r hreg hpri]
    by_cases hw : r.board_window ≤ r.minutes_in_window + 1
    · rw [if_pos hw]
      have hk : k = 0 := by omega
      subst hk
      rw [boardingTicks]
      rw [if_pos (by constructor <;> omega)]
    · rw [if_neg hw]
      rw [ih { r with minutes_in_window := r.minutes_in_window + 1 } hreg hpri
        (by simp only; omega)]
      by_cases hc : r.minutes_in_window + (k + 1) = r.board_window ∧ 0 < k + 1
      · rw [if_pos hc]
        rw [if_pos (by simp only; omega)]
        simp only [Ride.mk.injEq, true_and, and_true]
        omega
      · rw [if_neg hc]
        rw [if_neg (by simp only; omega)]
        simp only [Ride.mk.injEq, true_and, and_true]
        omega

theorem boarding_tick_nonempty (r : Ride)
    (h : (RideQueue.get_batch_for_boarding r.queue r.capacity).1 ≠ []) :
    r.boarding_tick =
      ({ r with minutes_in_window := r.minutes_in_window + 1,
                queue := (RideQueue.get_batch_for_boarding r.queue r.capacity).2,
                state := RideStatus.OPEN },
       BoardOutcome.cycleRun
         (RideQueue.get_batch_for_boarding r.queue r.capacity).1) := by
  simp only [boarding_tick]
  rw [if_neg h]

end Ride

theorem notifications_eq_filter (rideName : String) (t : Int)
    (recv : Nat → Except Unit Unit) :
    ∀ (batch : List QueueItem),
      run_cycle_notifications rideName t recv batch =
        (batch.filter (fun it => recvOk recv it.obj)).map
          (fun it => (it.obj, rideName, t)) := by
  intro batch
  induction batch with
  | nil => rfl
  | cons x rest ih =>
    rw [run_cycle_notifications]
    cases hx : recv x.obj with
    | ok u => cases u; simp [List.filter_cons, recvOk, hx, ih]
    | error e => cases e; simp [List.filter_cons, recvOk, hx, ih]

/-! ## Concrete fixtures used by the claim theorems and witnesses -/

/-- An empty priority-enabled ride queue with the lane capacities that
`main.py` configures when fast passes are enabled. -/
def emptyRideQueue : RideQueue :=
  { support_priority := true, reg := [], pri := [],
    max_regular := some 100, max_priority := some 50 }

/-- The `RollerCoaster` configuration of
`source/facilities/ride_instances.py` (capacity 16, run duration 5, board
window 3), freshly constructed: state OPEN, no breakdown recorded, no
repair guardian running. -/
def rollerCoaster : Ride :=
  { name := "RollerCoaster", capacity := 16, run_duration := 5,
    board_window := 3, queue := emptyRideQueue, state := RideStatus.OPEN,
    minutes_in_window := 0, broken_until := 0, repair_alive := false }

/-- A ride during a breakdown episode: state BROKEN with the repair
deadline at minute 110 and the guardian thread running. -/
def brokenRide : Ride :=
  { rollerCoaster with
    state := RideStatus.BROKEN,
    broken_until := 110,
    repair_alive := true }

/-- A ride that has just entered BOARDING with an empty queue. -/
def boardingRide : Ride :=
  { rollerCoaster with state := RideStatus.BOARDING }

/-- The clock as `source/main.py` style configurations build it: horizon
600 simulated minutes, counter at 0, not stopped. -/
def parkClock : Clock :=
  { open_minutes := 600, now := 0, stopped := false }

/-- A priority-enabled queue holding one priority item and three regular
items (the Scenario B fixture of the spec). -/
def demoQueue : RideQueue :=
  { support_priority := true,
    reg := [⟨1, 0, false⟩, ⟨2, 0, false⟩, ⟨3, 0, false⟩],
    pri := [⟨10, 0, true⟩], max_regular := some 100, max_priority := some 50 }

/-- A queue whose regular lane holds two items with the same payload 2,
to exercise first-match removal. -/
def dupQueue : RideQueue :=
  { support_priority := true,
    reg := [⟨1, 0, false⟩, ⟨2, 0, false⟩, ⟨2, 1, false⟩, ⟨3, 0, false⟩],
    pri := [⟨2, 2, true⟩], max_regular := some 100, max_priority := some 50 }

/-- A batch of three boarded items. -/
def demoBatch : List QueueItem :=
  [⟨1, 0, false⟩, ⟨2, 0, false⟩, ⟨3, 0, false⟩]

/-- Receiver behaviour where visitor 2's `on_ride_finished` raises and all
other visitors' callbacks return normally. -/
def recvDemo : Nat → Except Unit Unit :=
  fun o => if o = 2 then Except.error () else Except.ok ()

/-! ## Claim theorems -/

/-- Claim C1 — code bug.  `break_for(10)` at minute 100 on an OPEN ride
updates `_broken_until` to 110 and spawns the repair guardian, but performs
no state transition at all: the state machine stays OPEN and never becomes
BROKEN.  Consequently `is_broken()` still reports false afterwards, so the
`was_broken` guard that the source's own "if already broken, we silently
extend; no duplicate print" comment relies on never fires (a second
`break_for` at minute 105 is treated as a fresh breakdown, though it does
extend the deadline to 125 and spawns no second guardian while the first
thread is alive). -/
theorem C1_break_for_never_transitions :
    (rollerCoaster.break_for 100 10).1.state = RideStatus.OPEN ∧
    ¬ (rollerCoaster.break_for 100 10).1.state = RideStatus.BROKEN ∧
    (rollerCoaster.break_for 100 10).1.broken_until = 110 ∧
    (rollerCoaster.break_for 100 10).2 = true ∧
    (rollerCoaster.break_for 100 10).1.is_broken = false ∧
    ((rollerCoaster.break_for 100 10).1.break_for 105 20).1.broken_until = 125 ∧
    ((rollerCoaster.break_for 100 10).1.break_for 105 20).2 = false := by
  decide

/-- Claim C2 — code bug.  A repair-guardian poll before the deadline keeps
looping; once `now() >= brokenUntil` (minute 110 here) the guardian logs
the repair and exits, but it performs no BROKEN/MAINTENANCE → OPEN
transition: the ride record is returned completely unchanged, so a ride in
state BROKEN stays BROKEN after the repair deadline passes. -/
theorem C2_guardian_never_reopens :
    (brokenRide.repair_guardian_poll 109).2 = false ∧
    (brokenRide.repair_guardian_poll 110).2 = true ∧
    (brokenRide.repair_guardian_poll 110).1 = brokenRide ∧
    ¬ (brokenRide.repair_guardian_poll 110).1.state = RideStatus.OPEN := by
  decide

/-- Claim C3 — counterexample.  The claim says `sleep_minutes` leaves
`currentMinute` unchanged; on the park clock at minute 0 with the stop flag
unset, one `sleep_minutes(1)` call moves `_now` from 0 to 1. -/
theorem C3_cex_sleep_minutes_advances :
    ¬ ((parkClock.sleep_minutes 1).now = parkClock.now) := by
  decide

/-- Claim C3 — amended.  `sleep_minutes(n)` increments the shared `_now`
counter once per loop iteration: when the stop flag is unset it advances
`currentMinute` by exactly `n`, and when the stop flag is set it returns
with the clock unchanged.  `run_until_close` is therefore not the only
writer of `currentMinute`; every sleeping entity advances it. -/
theorem C3_sleep_minutes_writes_now (c : Clock) (n : Nat)
    (hst : c.stopped = false) :
    (c.sleep_minutes n).now = c.now + n ∧
    (∀ (c' : Clock), c'.stopped = true → c'.sleep_minutes n = c') := by
  refine ⟨?_, fun c' h => (Clock.sleep_minutes_now n c').2 h⟩
  rw [(Clock.sleep_minutes_now n c).1 hst]

/-- Witness for C3: the amended statement evaluated on the park clock. -/
theorem C3_witness :
    (parkClock.sleep_minutes 7).now = parkClock.now + 7 :=
  (C3_sleep_minutes_writes_now parkClock 7 rfl).1

/-- Claim C4 — confirmed.  On a priority-enabled queue with positive
capacity, `get_batch_for_boarding` returns: at most one head item of the
priority lane, then regular-lane items in FIFO order up to the remaining
capacity, then further priority items only for seats still left; at most
`capacity` items are returned and exactly the returned items are removed
(each lane keeps the untaken suffix).  In particular, with one priority
item and three regular items, capacity 2 yields the priority item followed
by the first regular item. -/
theorem C4_boarding_batch_fairness (q : RideQueue) (capacity : Int)
    (hs : q.support_priority = true) (hc : 0 < capacity) :
    (RideQueue.get_batch_for_boarding q capacity).1 =
        q.pri.take 1 ++
        q.reg.take (capacity.toNat - min 1 q.pri.length) ++
        (q.pri.drop 1).take
          ((capacity.toNat - min 1 q.pri.length) - q.reg.length) ∧
    (RideQueue.get_batch_for_boarding q capacity).2.reg =
        q.reg.drop (capacity.toNat - min 1 q.pri.length) ∧
    (RideQueue.get_batch_for_boarding q capacity).2.pri =
        (q.pri.drop 1).drop
          ((capacity.toNat - min 1 q.pri.length) - q.reg.length) ∧
    (RideQueue.get_batch_for_boarding q capacity).1.length ≤ capacity.toNat ∧
    (∀ (p r1 r2 r3 : QueueItem) (mr mp : Option Nat),
        RideQueue.get_batch_for_boarding ⟨true, [r1, r2, r3], [p], mr, mp⟩ 2 =
          ([p, r1], ⟨true, [r2, r3], [], mr, mp⟩)) := by
  have h := RideQueue.get_batch_eq_pos q capacity hs hc
  refine ⟨by rw [h], by rw [h], by rw [h], ?_, ?_⟩
  · rw [h]
    simp only [List.length_append, List.length_take]
    omega
  · intro p r1 r2 r3 mr mp
    rfl

/-- Witness for C4: the fairness rule evaluated on the Scenario B queue
(one priority item, three regular items, capacity 2). -/
theorem C4_witness :
    (RideQueue.get_batch_for_boarding demoQueue 2).1 =
      [⟨10, 0, true⟩, ⟨1, 0, false⟩] :=
  ((C4_boarding_batch_fairness demoQueue 2 rfl (by decide)).1).trans (by decide)

/-- Claim C5 — confirmed.  Any sequence of enqueue operations keeps every
lane within its configured maximum, and a single enqueue is rejected
exactly when its target lane is already at its configured capacity — where
the target lane is the priority lane precisely for a priority enqueue on a
priority-supporting queue, so a priority enqueue without priority support
is admitted against (and appended to) the regular lane.  The same capacity
contract holds for the single-lane service queue. -/
theorem C5_capacity_invariant :
    (∀ (q : RideQueue) (ops : List (Nat × Nat × Bool)),
        q.capsOk → (q.applyEnqueues ops).capsOk) ∧
    (∀ (q : RideQueue) (obj m : Nat) (p : Bool),
        (q.enqueue obj m p).1 = false ↔
          laneFull
            (if p && q.support_priority then q.pri.length else q.reg.length)
            (if p && q.support_priority then q.max_priority else q.max_regular)
            = true) ∧
    (∀ (q : RideQueue) (obj m : Nat), q.support_priority = false →
        (q.enqueue obj m true).2.pri = q.pri ∧
        ((q.enqueue obj m true).1 = true →
          (q.enqueue obj m true).2.reg = q.reg ++ [⟨obj, m, true⟩])) ∧
    (∀ (s : ServiceQueue) (ops : List (Nat × Nat)),
        s.capsOk → (s.applyEnqueues ops).capsOk) ∧
    (∀ (s : ServiceQueue) (obj m : Nat),
        (s.enqueue obj m).1 = false ↔ laneFull s.q.length s.max_size = true) := by
  refine ⟨fun q ops h => RideQueue.applyEnqueues_caps ops q h,
          RideQueue.enqueue_rejected_iff, ?_,
          fun s ops h => ServiceQueue.service_applyEnqueues_caps ops s h,
          ServiceQueue.service_enqueue_rejected_iff⟩
  intro q obj m hsp
  rw [RideQueue.enqueue]
  rw [if_neg (by simp [hsp])]
  by_cases hfull : laneFull q.reg.length q.max_regular = true
  · rw [if_pos hfull]
    exact ⟨rfl, by intro h; cases h⟩
  · rw [if_neg hfull]
    exact ⟨rfl, fun _ => rfl⟩

/-- Witness for C5: Scenario A — a regular lane capped at 2 absorbs two
items under any enqueue sequence, and a third regular enqueue on the full
lane is rejected. -/
theorem C5_witness :
    (RideQueue.applyEnqueues ⟨false, [], [], some 2, none⟩
        [(1, 0, false), (2, 0, false), (3, 0, false)]).capsOk ∧
    ((⟨false, [⟨1, 0, false⟩, ⟨2, 0, false⟩], [], some 2, none⟩ :
        RideQueue).enqueue 3 0 false).1 = false :=
  ⟨C5_capacity_invariant.1 _ _ ⟨by decide, by decide⟩,
   (C5_capacity_invariant.2.1 _ 3 0 false).mpr (by decide)⟩

/-- Claim C6 — confirmed.  Every `break_for(m)` call at minute `now` sets
`_broken_until` to `max(currentBrokenUntil, now + max(1, m))`, so the
deadline never decreases; and after `break_for(5)` a further
`break_for(3)` at the same minute leaves the deadline unchanged when
`now + 3` is below it and moves it to `now + 3` otherwise. -/
theorem C6_broken_until_extension (r : Ride) (now m : Int) :
    (r.break_for now m).1.broken_until = max r.broken_until (now + max 1 m) ∧
    r.broken_until ≤ (r.break_for now m).1.broken_until ∧
    ((r.break_for now 5).1.break_for now 3).1.broken_until =
      (if now + 3 < (r.break_for now 5).1.broken_until then
        (r.break_for now 5).1.broken_until
      else now + 3) := by
  have h1 := (Ride.break_for_fst r now m).1
  refine ⟨h1, by rw [h1]; exact le_max_left _ _, ?_⟩
  have h3 := (Ride.break_for_fst (r.break_for now 5).1 now 3).1
  rw [h3]
  have hm3 : max (1 : Int) 3 = 3 := by decide
  rw [hm3]
  by_cases hlt : now + 3 < (r.break_for now 5).1.broken_until
  · rw [if_pos hlt]
    exact max_eq_left (le_of_lt hlt)
  · rw [if_neg hlt]
    exact max_eq_right (by omega)

/-- Claim C7 — confirmed.  A ride that enters BOARDING with both lanes
empty and receives no arrivals stays in BOARDING for the first
`board_window - 1` ticks and transitions back to OPEN on tick number
`board_window`; and on any BOARDING tick whose extracted batch is
non-empty the ride runs one cycle (outcome `cycleRun batch`) and returns
to OPEN. -/
theorem C7_boarding_window (r : Ride)
    (hs : r.state = RideStatus.BOARDING)
    (h0 : r.minutes_in_window = 0)
    (hreg : r.queue.reg = [])
    (hpri : r.queue.pri = [])
    (hbw : 1 ≤ r.board_window) :
    (∀ k, k < r.board_window →
        (Ride.boardingTicks r k).state = RideStatus.BOARDING) ∧
    (Ride.boardingTicks r r.board_window).state = RideStatus.OPEN ∧
    (∀ (x : Ride),
        (RideQueue.get_batch_for_boarding x.queue x.capacity).1 ≠ [] →
        x.boarding_tick.1.state = RideStatus.OPEN ∧
        x.boarding_tick.2 = Ride.BoardOutcome.cycleRun
          (RideQueue.get_batch_for_boarding x.queue x.capacity).1) := by
  refine ⟨?_, ?_, ?_⟩
  · intro k hk
    rw [Ride.boardingTicks_empty k r hreg hpri (by omega), if_neg (by omega)]
    simpa using hs
  · rw [Ride.boardingTicks_empty r.board_window r hreg hpri (by omega),
      if_pos (by constructor <;> omega)]
  · intro x hne
    rw [Ride.boarding_tick_nonempty x hne]
    exact ⟨rfl, rfl⟩

/-- Witness for C7: the RollerCoaster (board window 3) entering BOARDING
with an empty queue is still BOARDING after 2 ticks and OPEN after 3. -/
theorem C7_witness :
    (Ride.boardingTicks boardingRide 2).state = RideStatus.BOARDING ∧
    (Ride.boardingTicks boardingRide 3).state = RideStatus.OPEN :=
  ⟨(C7_boarding_window boardingRide rfl rfl rfl rfl (by decide)).1 2 (by decide),
   (C7_boarding_window boardingRide rfl rfl rfl rfl (by decide)).2.1⟩

/-- Claim C8 — confirmed.  The notification loop of `_run_cycle` attempts
each batch item exactly once in order: the delivered notifications are the
`(visitor, ride name, completion minute)` triples of precisely those items
whose receiver does not raise; when no receiver raises, every item gets
exactly one notification; and an item whose own receiver returns normally
is notified no matter which other receivers raise, so one failure never
aborts the loop or suppresses the remaining notifications. -/
theorem C8_ride_finished_notifications (rideName : String) (t : Int)
    (recv : Nat → Except Unit Unit) (batch : List QueueItem) :
    run_cycle_notifications rideName t recv batch =
      (batch.filter (fun it => recvOk recv it.obj)).map
        (fun it => (it.obj, rideName, t)) ∧
    ((∀ it ∈ batch, recvOk recv it.obj = true) →
      run_cycle_notifications rideName t recv batch =
        batch.map (fun it => (it.obj, rideName, t))) ∧
    (∀ it ∈ batch, recvOk recv it.obj = true →
      (it.obj, rideName, t) ∈ run_cycle_notifications rideName t recv batch) := by
  have h := notifications_eq_filter rideName t recv batch
  refine ⟨h, ?_, ?_⟩
  · intro hall
    rw [h, List.filter_eq_self.mpr hall]
  · intro it hit hok
    rw [h]
    exact List.mem_map_of_mem _ (List.mem_filter.mpr ⟨hit, hok⟩)

/-- Witness for C8: visitor 2's callback raises; visitors 1 and 3 are
still notified exactly once each, and the loop completes. -/
theorem C8_witness :
    run_cycle_notifications "RollerCoaster" 9 recvDemo demoBatch =
      [(1, "RollerCoaster", 9), (3, "RollerCoaster", 9)] ∧
    (3, "RollerCoaster", 9) ∈
      run_cycle_notifications "RollerCoaster" 9 recvDemo demoBatch :=
  ⟨((C8_ride_finished_notifications "RollerCoaster" 9 recvDemo demoBatch).1).trans
      (by decide),
   (C8_ride_finished_notifications "RollerCoaster" 9 recvDemo demoBatch).2.2
      ⟨3, 0, false⟩ (by decide) (by decide)⟩

/-- Claim C9 — confirmed.  For any capacity at most 0,
`get_batch_for_boarding` takes the early-return branch: it yields the
empty batch and leaves the queue (both lanes) untouched. -/
theorem C9_nonpositive_capacity (q : RideQueue) (c : Int) (hc : c ≤ 0) :
    RideQueue.get_batch_for_boarding q c = ([], q) := by
  rw [RideQueue.get_batch_for_boarding, if_pos hc]

/-- Witness for C9: capacity `-3` on the Scenario B queue. -/
theorem C9_witness :
    RideQueue.get_batch_for_boarding demoQueue (-3) = ([], demoQueue) :=
  C9_nonpositive_capacity demoQueue (-3) (by decide)

/-- Claim C10 — confirmed.  `remove(obj)` scans the regular lane first and
the priority lane only when the regular lane has no match; it deletes
exactly the first item whose payload is `obj` (every earlier item of that
lane has a different payload), the surviving items of the affected lane
are its original prefix and suffix in order, the other lane is untouched,
and when neither lane holds the payload the queue is returned unchanged. -/
theorem C10_remove_first_match (q : RideQueue) (obj : Nat) :
    (∀ i, RideQueue.findFirst (fun it => it.obj == obj) q.reg = some i →
        q.remove obj =
          (true, { q with reg := q.reg.take i ++ q.reg.drop (i + 1) }) ∧
        (∀ x ∈ q.reg.take i, x.obj ≠ obj) ∧
        ∃ h : i < q.reg.length, (q.reg.get ⟨i, h⟩).obj = obj) ∧
    (RideQueue.findFirst (fun it => it.obj == obj) q.reg = none →
      ∀ i, RideQueue.findFirst (fun it => it.obj == obj) q.pri = some i →
        q.remove obj =
          (true, { q with pri := q.pri.take i ++ q.pri.drop (i + 1) }) ∧
        (∀ x ∈ q.pri.take i, x.obj ≠ obj) ∧
        ∃ h : i < q.pri.length, (q.pri.get ⟨i, h⟩).obj = obj) ∧
    (RideQueue.findFirst (fun it => it.obj == obj) q.reg = none →
      RideQueue.findFirst (fun it => it.obj == obj) q.pri = none →
        q.remove obj = (false, q) ∧ ∀ x ∈ q.reg ++ q.pri, x.obj ≠ obj) := by
  refine ⟨?_, ?_, ?_⟩
  · intro i hi
    obtain ⟨hbefore, hlt, hat⟩ := RideQueue.findFirst_spec _ q.reg i hi
    refine ⟨?_, ?_, ⟨hlt, by simpa using hat⟩⟩
    · simp only [RideQueue.remove, hi]
      rw [RideQueue.rotate_remove_eq q.reg i hlt]
    · intro x hx
      simpa using hbefore x hx
  · intro hnone i hi
    obtain ⟨hbefore, hlt, hat⟩ := RideQueue.findFirst_spec _ q.pri i hi
    refine ⟨?_, ?_, ⟨hlt, by simpa using hat⟩⟩
    · simp only [RideQueue.remove, hnone, hi]
      rw [RideQueue.rotate_remove_eq q.pri i hlt]
    · intro x hx
      simpa using hbefore x hx
  · intro hr hp
    refine ⟨by simp only [RideQueue.remove, hr, hp], ?_⟩
    intro x hx
    rcases List.mem_append.mp hx with h | h
    · simpa using RideQueue.findFirst_none _ q.reg hr x h
    · simpa using RideQueue.findFirst_none _ q.pri hp x h

/-- Witness for C10: removing payload 2 from `dupQueue` deletes only the
first of the two regular items carrying 2 and leaves the priority item
with payload 2 in place. -/
theorem C10_witness :
    (ParkSim.dupQueue.remove 2 =
      (true, { dupQueue with
               reg := dupQueue.reg.take 1 ++ dupQueue.reg.drop 2 })) :=
  ((C10_remove_first_match dupQueue 2).1 1 (by decide)).1

end ParkSim
